import Mathlib

/-!
# go_media_server: recorder write path and publish-session coordinator

A shallow embedding of `src/mpegts_muxer.go` (`mpegtsMuxer.initialize`,
`mpegtsMuxer.close`, `mpegtsMuxer.writeH264`) and of the coordinator callbacks of
`src/main.go` (`serverHandler.OnAnnounce`, `serverHandler.OnSessionClose`).

Conventions.
* A Go `[]byte` is a `List Nat`; a nil slice and an empty slice are both `[]`
  (the code only ever tests `au == nil` on a slice that is nil exactly when nothing
  was appended to it). An access unit `[][]byte` is a `List (List Nat)`.
* A Go run-time panic (index out of range, nil dereference, explicit `panic`) ends the
  process. A coordinator callback that can panic returns `Option`, `none` being the panic;
  `writeH264` returns an `Outcome`, which for a panic keeps the external calls made before
  it.
* The external collaborators (decode-timestamp estimator, transport-stream writer) are
  parameters, bundled in `Codec`; the calls made to them are recorded as `Call`s, and
  their states are threaded through the recorder.
-/

namespace GoMediaServer

/-- One NAL unit: a Go `[]byte`. -/
abbrev NALU := List Nat

/-- An access unit: a Go `[][]byte`. -/
abbrev AU := List NALU

/-- Modelled from the spec: constant `h264.NALUTypeNonIDR` of the external h264 package
(non-IDR slice, NAL unit type 1). -/
def NALUTypeNonIDR : Nat := 1

/-- Modelled from the spec: constant `h264.NALUTypeIDR` of the external h264 package
(IDR slice, NAL unit type 5). -/
def NALUTypeIDR : Nat := 5

/-- Modelled from the spec: constant `h264.NALUTypeSPS` of the external h264 package
(sequence parameter set, NAL unit type 7). -/
def NALUTypeSPS : Nat := 7

/-- Modelled from the spec: constant `h264.NALUTypePPS` of the external h264 package
(picture parameter set, NAL unit type 8). -/
def NALUTypePPS : Nat := 8

/-- Modelled from the spec: constant `h264.NALUTypeAccessUnitDelimiter` of the external
h264 package (access unit delimiter, NAL unit type 9). -/
def NALUTypeAccessUnitDelimiter : Nat := 9

/-! ## The recorder -/

/-- The external collaborators of the recorder, as parameters: `D` is the state of an
`h264.DTSExtractor`, `W` the state of an `mpegts.Writer` (with its track and buffered
writer). `Extract` may panic (`none`). Two facts about `Extract` are part of the model,
because `writeH264` itself hands it zero-length units when the cache is empty: `Extract`
classifies the NAL units of the access unit it is given in order, each by its first byte
(`nalu[0] & 0x1F`) and without a length check, as the loop of `writeH264` does. So a
zero-length first unit is an index out of range panic, and no decode timestamp comes back
for an access unit that holds a zero-length unit. -/
structure Codec (D W : Type) where
  /-- the estimator right after `&h264.DTSExtractor{}` and `Initialize()` -/
  dtsInit : D
  /-- the call `dtsExtractor.Extract(au, pts)`: `none` for a panic, otherwise the new
  estimator state and the returned error or decode timestamp -/
  dtsExtract : D → AU → Int → Option (D × Except String Int)
  /-- the writer right after `w.Initialize()` -/
  tsInit : W
  /-- the call `w.WriteH264(track, pts, dts, au)`: new writer state and error, if any -/
  tsWrite : W → Int → Int → AU → W × Option String
  /-- `Extract` panics on an access unit whose first unit is zero-length -/
  extract_first : ∀ (d : D) (rest : AU) (pts : Int), dtsExtract d ([] :: rest) pts = none
  /-- `Extract` returns a decode timestamp only for access units without zero-length unit -/
  extract_ok : ∀ (d d1 : D) (au : AU) (pts dts : Int),
    dtsExtract d au pts = some (d1, Except.ok dts) → ∀ n ∈ au, n ≠ []

/-- An initialized `mpegtsMuxer`. The fields `b`, `w` and `track` of the Go struct are
all built by `initialize` around the file `f`; `w` stands for the three of them. -/
structure mpegtsMuxer (D W : Type) where
  fileName : String
  sps : NALU
  pps : NALU
  /-- the `*os.File`: index of the file in the file table of the process -/
  f : Nat
  w : W
  /-- the `*h264.DTSExtractor`, `none` for nil -/
  dtsExtractor : Option D

/-- The local state of the loop of `writeH264`: the two cache fields of the receiver that
the loop assigns, and the three locals. -/
structure Scan where
  sps : NALU
  pps : NALU
  filteredAU : AU
  nonIDRPresent : Bool
  idrPresent : Bool
deriving DecidableEq, Repr

/-- One iteration of `for _, nalu := range au` in `writeH264`. `nalu[0]` on an empty
slice is an index out of range panic (`none`). -/
def scanStep (s : Scan) (nalu : NALU) : Option Scan :=
  match nalu with
  | [] => none
  | b :: _ =>
    let typ := b &&& 0x1F
    if typ = NALUTypeSPS then some { s with sps := nalu }
    else if typ = NALUTypePPS then some { s with pps := nalu }
    else if typ = NALUTypeAccessUnitDelimiter then some s
    else if typ = NALUTypeIDR then
      some { s with idrPresent := true, filteredAU := s.filteredAU ++ [nalu] }
    else if typ = NALUTypeNonIDR then
      some { s with nonIDRPresent := true, filteredAU := s.filteredAU ++ [nalu] }
    else some { s with filteredAU := s.filteredAU ++ [nalu] }

/-- The whole loop of `writeH264`, in order, stopping at the first panic. -/
def scan : Scan → AU → Option Scan
  | s, [] => some s
  | s, nalu :: rest =>
    match scanStep s nalu with
    | none => none
    | some s1 => scan s1 rest

/-- A call that `writeH264` makes to an external collaborator. -/
inductive Call where
  /-- `e.dtsExtractor = &h264.DTSExtractor{}` followed by `Initialize()` -/
  | newDTSExtractor
  /-- `e.dtsExtractor.Extract(au, pts)` -/
  | extract (au : AU) (pts : Int)
  /-- `e.w.WriteH264(e.track, pts, dts, au)` -/
  | write (pts : Int) (dts : Int) (au : AU)
deriving DecidableEq, Repr

/-- What a returning call of `writeH264` leaves: the recorder, the returned error (`none`
for nil) and the external calls made, in order. -/
structure WriteResult (D W : Type) where
  muxer : mpegtsMuxer D W
  err : Option String
  calls : List Call

/-- How a call of `writeH264` ends: it returns, or the process panics, in the loop (before
any external call) or inside `Extract` (after the calls listed). -/
inductive Outcome (D W : Type) where
  | returned (r : WriteResult D W)
  | panicked (calls : List Call)

/-- The tail of `writeH264` from `dts, err := e.dtsExtractor.Extract(au, pts)` on, with
`d` the estimator to use and `pre` the calls made so far. -/
def extractAndWrite {D W : Type} (c : Codec D W) (e : mpegtsMuxer D W) (d : D)
    (pre : List Call) (au : AU) (pts : Int) : Outcome D W :=
  match c.dtsExtract d au pts with
  | none => Outcome.panicked (pre ++ [Call.extract au pts])
  | some (d1, Except.error err) =>
    Outcome.returned
      { muxer := { e with dtsExtractor := some d1 }, err := some err,
        calls := pre ++ [Call.extract au pts] }
  | some (d1, Except.ok dts) =>
    match c.tsWrite e.w pts dts au with
    | (w1, werr) =>
      Outcome.returned
        { muxer := { e with dtsExtractor := some d1, w := w1 }, err := werr,
          calls := pre ++ [Call.extract au pts, Call.write pts dts au] }

/-- The method `mpegtsMuxer.writeH264`. -/
def writeH264 {D W : Type} (c : Codec D W) (e : mpegtsMuxer D W) (au : AU) (pts : Int) :
    Outcome D W :=
  match scan { sps := e.sps, pps := e.pps, filteredAU := [],
               nonIDRPresent := false, idrPresent := false } au with
  | none => Outcome.panicked []
  | some s =>
    let e1 : mpegtsMuxer D W := { e with sps := s.sps, pps := s.pps }
    if s.filteredAU.isEmpty || (!s.idrPresent && !s.nonIDRPresent) then
      Outcome.returned { muxer := e1, err := none, calls := [] }
    else
      let au1 : AU := if s.idrPresent then [e1.sps, e1.pps] ++ s.filteredAU else s.filteredAU
      match e1.dtsExtractor with
      | none =>
        if !s.idrPresent then Outcome.returned { muxer := e1, err := none, calls := [] }
        else extractAndWrite c e1 c.dtsInit [Call.newDTSExtractor] au1 pts
      | some d => extractAndWrite c e1 d [] au1 pts

/-- A run of successive `writeH264` calls on one recorder, as made by the packet callback
of `OnRecord`: the outcome of every call that is executed, in order. A panic ends the
process, so it is the last outcome of the run. -/
def writeAll {D W : Type} (c : Codec D W) (e : mpegtsMuxer D W) :
    List (AU × Int) → List (Outcome D W)
  | [] => []
  | (au, pts) :: rest =>
    match writeH264 c e au pts with
    | Outcome.panicked calls => [Outcome.panicked calls]
    | Outcome.returned r => Outcome.returned r :: writeAll c r.muxer rest

/-- The external calls that one invocation of `writeH264` makes, whether it returns or
panics. -/
def externalCalls {D W : Type} (o : Outcome D W) : List Call :=
  match o with
  | Outcome.panicked calls => calls
  | Outcome.returned r => r.calls

/-- The access unit that an external call hands over, if it hands one over. -/
def Call.handedAU : Call → Option AU
  | Call.newDTSExtractor => none
  | Call.extract au _ => some au
  | Call.write _ _ au => some au

/-! ### The claims' vocabulary for access units

These definitions follow the wording of the specification, not the code; the theorems
below compare `writeH264` with them. -/

/-- The type of a NAL unit: its first byte masked with `0x1F`; a zero-length NAL unit has
none. -/
def specNALUType (n : NALU) : Option Nat :=
  match n with
  | [] => none
  | b :: _ => some (b &&& 0x1F)

/-- The NAL unit has type `t`. -/
def specIsType (t : Nat) (n : NALU) : Bool := specNALUType n == some t

/-- The access unit contains a NAL unit of type `t`. -/
def specContains (t : Nat) (au : AU) : Prop := ∃ n ∈ au, specNALUType n = some t

instance (t : Nat) (au : AU) : Decidable (specContains t au) := by
  unfold specContains; infer_instance

/-- Every NAL unit of the access unit has at least one byte. -/
def specNonEmptyNALUs (au : AU) : Prop := ∀ n ∈ au, n ≠ []

instance (au : AU) : Decidable (specNonEmptyNALUs au) := by
  unfold specNonEmptyNALUs; infer_instance

/-- The units the filter retains: those that are neither a parameter set (SPS, PPS) nor
an access unit delimiter, in their original order. -/
def specRetained (au : AU) : AU :=
  au.filter (fun n => !(specIsType NALUTypeSPS n || specIsType NALUTypePPS n
    || specIsType NALUTypeAccessUnitDelimiter n))

/-- The most recently observed NAL unit of type `t`: the last one of the access unit if it
has one, the previously cached value `old` otherwise. -/
def specLatest (t : Nat) (old : NALU) (au : AU) : NALU :=
  ((au.filter (specIsType t)).getLast?).getD old

/-- The access unit of a keyframe as the specification describes it: cached SPS, cached
PPS (the cache as it stands after this access unit), then the retained units. -/
def specKeyframeAU (sps pps : NALU) (au : AU) : AU :=
  specLatest NALUTypeSPS sps au :: specLatest NALUTypePPS pps au :: specRetained au

/-- The access unit that the recorder timestamps: the keyframe access unit when the unit
contains an IDR, the retained units otherwise. -/
def specHandedAU (sps pps : NALU) (au : AU) : AU :=
  if specContains NALUTypeIDR au then specKeyframeAU sps pps au else specRetained au

/-- The external calls that precede `Extract` in a call that gets to it: the creation of
the estimator when the recorder has none. -/
def callsBeforeExtract {D : Type} (d : Option D) : List Call :=
  match d with
  | none => [Call.newDTSExtractor]
  | some _ => []

/-- The access unit gets past the drop and the timestamp gate: it contains an IDR, or it
contains a non-IDR slice and the estimator already exists. -/
def specTimestamped (hasEstimator : Bool) (au : AU) : Prop :=
  specContains NALUTypeIDR au ∨ (specContains NALUTypeNonIDR au ∧ hasEstimator = true)

instance (b : Bool) (au : AU) : Decidable (specTimestamped b au) := by
  unfold specTimestamped; infer_instance

/-! ## The coordinator -/

/-- Modelled from the spec: constant `base.StatusOK` of the external RTSP package. -/
def StatusOK : Nat := 200

/-- Modelled from the spec: constant `base.StatusBadRequest` of the external RTSP package
(the client-error status of a rejected announce). -/
def StatusBadRequest : Nat := 400

/-- The fields of a `format.H264` that the code reads. -/
structure H264Format where
  SPS : NALU
  PPS : NALU
deriving DecidableEq, Repr

/-- The resources of the process that the coordinator acts on. Files are numbered in the
order `os.Create` returned them, streams in the order they were built. -/
structure World where
  /-- number of files that `os.Create` has returned so far -/
  created : Nat
  /-- the files that are open, most recent first -/
  openFiles : List Nat
  /-- number of `gortsplib.ServerStream`s built so far -/
  streams : Nat
  /-- the streams on which `Close()` was called, in order -/
  closedStreams : List Nat
  /-- the sessions on which the server called `Close()`, in order -/
  closedSessions : List Nat
deriving DecidableEq, Repr

/-- The struct `serverHandler` without `server` and `mutex`. Sessions, media and streams
are identified by numbers; `none` is a nil pointer. The decoder `rtpDec` is represented by
the format it was created from. -/
structure serverHandler (D W : Type) where
  publisher : Option Nat
  media : Option Nat
  format : Option H264Format
  rtpDec : Option H264Format
  stream : Option Nat
  mpegtsMuxer : Option (mpegtsMuxer D W)

/-- The method `mpegtsMuxer.initialize` on `&mpegtsMuxer{fileName, sps, pps}`. Whether
`os.Create` fails is decided by the environment (`createErr`). The writer is built on the
lines just above its `Initialize()` with exactly one fresh H.264 track, for which
`Initialize()` returns nil, so the second `return err` of the method is never taken and
is not a path of the model. -/
def mpegtsMuxer.initialize {D W : Type} (c : Codec D W) (wd : World) (fileName : String)
    (sps pps : NALU) (createErr : Bool) :
    World × Except String (mpegtsMuxer D W) :=
  if createErr then (wd, Except.error "os.Create failed")
  else
    ({ wd with created := wd.created + 1, openFiles := wd.created :: wd.openFiles },
     Except.ok { fileName := fileName, sps := sps, pps := pps, f := wd.created,
                 w := c.tsInit, dtsExtractor := none })

/-- The method `mpegtsMuxer.close` on the pointer `e`: `e.b.Flush()` then `e.f.Close()`,
both results ignored. On a nil receiver `e.b` is a nil dereference panic (`none`). Closing
a file that is already closed only yields an error, which is ignored. -/
def mpegtsMuxer.close {D W : Type} (wd : World) (e : Option (mpegtsMuxer D W)) :
    Option World :=
  match e with
  | none => none
  | some m => some { wd with openFiles := wd.openFiles.filter (fun i => i != m.f) }

/-- The method `serverHandler.OnSessionClose` for the closing session `session`. -/
def OnSessionClose {D W : Type} (st : World × serverHandler D W) (session : Nat) :
    Option (World × serverHandler D W) :=
  let wd := st.1
  let sh := st.2
  let st1 : World × serverHandler D W :=
    match sh.stream with
    | some s =>
      if sh.publisher = some session then
        ({ wd with closedStreams := wd.closedStreams ++ [s] }, { sh with stream := none })
      else (wd, sh)
    | none => (wd, sh)
  let sh2 : serverHandler D W := { st1.2 with publisher := none }
  match mpegtsMuxer.close st1.1 sh2.mpegtsMuxer with
  | none => none
  | some wd2 => some (wd2, sh2)

/-- What an announce brings: the announcing session, the result of
`ctx.Description.FindFormat(&forma)` (media and H.264 format, `none` when the description
has no H.264 format), and the outcomes of the fallible external calls. -/
structure AnnounceCtx where
  session : Nat
  h264 : Option (Nat × H264Format)
  /-- whether `forma.CreateDecoder()` fails -/
  decoderErr : Bool
  /-- whether `os.Create` fails -/
  createErr : Bool
  /-- whether `sh.stream.Initialize()` fails -/
  streamErr : Bool
deriving DecidableEq, Repr

/-- The response of `OnAnnounce`: status code and returned error. -/
structure Response where
  status : Nat
  err : Option String
deriving DecidableEq, Repr

/-- The first statement of `OnAnnounce`: when a publisher and a stream are bound, close
the stream, the publisher session and the recorder. -/
def announceTeardown {D W : Type} (st : World × serverHandler D W) : Option World :=
  match st.2.publisher, st.2.stream with
  | some p, some s =>
    mpegtsMuxer.close
      { st.1 with closedStreams := st.1.closedStreams ++ [s],
                  closedSessions := st.1.closedSessions ++ [p] }
      st.2.mpegtsMuxer
  | _, _ => some st.1

/-- The method `serverHandler.OnAnnounce`; `none` is a panic. -/
def OnAnnounce {D W : Type} (c : Codec D W) (st : World × serverHandler D W)
    (ctx : AnnounceCtx) : Option (World × serverHandler D W × Response) :=
  match announceTeardown st with
  | none => none
  | some wd1 =>
    let sh := st.2
    match ctx.h264 with
    | none =>
      some (wd1, sh, { status := StatusBadRequest, err := some "H264 media not found" })
    | some (medi, forma) =>
      if ctx.decoderErr then none
      else
        match mpegtsMuxer.initialize c wd1 "mystream.ts" forma.SPS forma.PPS
                ctx.createErr with
        | (wd2, Except.error err) =>
          some (wd2, sh, { status := StatusBadRequest, err := some err })
        | (wd2, Except.ok muxer) =>
          if ctx.streamErr then none
          else
            some ({ wd2 with streams := wd2.streams + 1 },
                  { publisher := some ctx.session, media := some medi, format := some forma,
                    rtpDec := some forma, stream := some wd2.streams,
                    mpegtsMuxer := some muxer },
                  { status := StatusOK, err := none })

/-- The two events of the coordinator that the claims are about. -/
inductive Event where
  | announce (ctx : AnnounceCtx)
  | sessionClose (session : Nat)
deriving DecidableEq, Repr

/-- One event handled by the coordinator; `none` is a panic. -/
def step {D W : Type} (c : Codec D W) (st : World × serverHandler D W) :
    Event → Option (World × serverHandler D W)
  | Event.announce ctx =>
    match OnAnnounce c st ctx with
    | none => none
    | some (wd, sh, _) => some (wd, sh)
  | Event.sessionClose session => OnSessionClose st session

/-- A sequence of events handled one after the other (the handlers hold `sh.mutex`). -/
def run {D W : Type} (c : Codec D W) (st : World × serverHandler D W) :
    List Event → Option (World × serverHandler D W)
  | [] => some st
  | ev :: rest =>
    match step c st ev with
    | none => none
    | some st1 => run c st1 rest

/-- The coordinator at startup, `h := &serverHandler{}`: Idle, nothing created. -/
def initial (D W : Type) : World × serverHandler D W :=
  ({ created := 0, openFiles := [], streams := 0, closedStreams := [], closedSessions := [] },
   { publisher := none, media := none, format := none, rtpDec := none, stream := none,
     mpegtsMuxer := none })

/-! ### Concrete collaborators and inputs for the examples -/

/-- An estimator that panics on an access unit with a zero-length unit and answers with
`dts = pts` on every other one, and a writer that never fails. -/
def demoCodec : Codec Unit Unit :=
  { dtsInit := ()
    dtsExtract := fun _ au pts =>
      if au.any List.isEmpty then none else some ((), Except.ok pts)
    tsInit := ()
    tsWrite := fun _ _ _ _ => ((), none)
    extract_first := fun _ _ _ => rfl
    extract_ok := by
      intro _ _ au _ _ h n hn hnil
      subst hnil
      have hany : au.any List.isEmpty = true := List.any_eq_true.2 ⟨[], hn, rfl⟩
      simp [hany] at h }

/-- A recorder as `OnAnnounce` builds it from a description without parameter sets. -/
def demoMuxer : mpegtsMuxer Unit Unit :=
  { fileName := "mystream.ts", sps := [], pps := [], f := 0, w := (), dtsExtractor := none }

/-- An announce with an H.264 format in which every external call succeeds. -/
def demoAnnounce (session : Nat) : AnnounceCtx :=
  { session := session, h264 := some (0, { SPS := [0x67, 0x42], PPS := [0x68, 0xCE] }),
    decoderErr := false, createErr := false, streamErr := false }

/-- The coordinator after the announce of session 1 at startup: Publishing, with stream 0
and a recorder on file 0. -/
def demoPublishing : World × serverHandler Unit Unit :=
  ({ created := 1, openFiles := [0], streams := 1, closedStreams := [], closedSessions := [] },
   { publisher := some 1, media := some 0,
     format := some { SPS := [0x67, 0x42], PPS := [0x68, 0xCE] },
     rtpDec := some { SPS := [0x67, 0x42], PPS := [0x68, 0xCE] }, stream := some 0,
     mpegtsMuxer := some { fileName := "mystream.ts", sps := [0x67, 0x42], pps := [0x68, 0xCE],
                           f := 0, w := (), dtsExtractor := none } })

/-! ### Auxiliary definitions used by the proofs -/

/-- The body of `writeH264` after the loop, with the loop replaced by what it computes:
`idr` and `nonIDR` are the two flags, `kept` the filtered access unit. -/
def afterScan {D W : Type} (c : Codec D W) (e1 : mpegtsMuxer D W) (kept : AU)
    (idr nonIDR : Bool) (pts : Int) : Outcome D W :=
  if kept.isEmpty || (!idr && !nonIDR) then
    Outcome.returned { muxer := e1, err := none, calls := [] }
  else
    match e1.dtsExtractor with
    | none =>
      if !idr then Outcome.returned { muxer := e1, err := none, calls := [] }
      else extractAndWrite c e1 c.dtsInit [Call.newDTSExtractor]
             (if idr then [e1.sps, e1.pps] ++ kept else kept) pts
    | some d => extractAndWrite c e1 d [] (if idr then [e1.sps, e1.pps] ++ kept else kept) pts

/-- The recorder invariant of the coordinator: no file is open, or the only open file is
the one of the recorder the coordinator holds, and then a publisher and a stream are
bound. -/
def sinkInvariant {D W : Type} (st : World × serverHandler D W) : Prop :=
  st.1.openFiles = [] ∨
    ∃ m, st.2.mpegtsMuxer = some m ∧ st.1.openFiles = [m.f] ∧
      st.2.publisher ≠ none ∧ st.2.stream ≠ none

/-- The response of `OnAnnounce` to a description without H.264 format. -/
def h264NotFound : Response :=
  { status := StatusBadRequest, err := some "H264 media not found" }

/-! ## The loop of `writeH264` against the vocabulary of the specification -/

theorem specIsType_cons (t b : Nat) (l : List Nat) :
    specIsType t (b :: l) = (b &&& 0x1F == t) := by
  simp [specIsType, specNALUType]

theorem specLatest_nil (t : Nat) (old : NALU) : specLatest t old [] = old := rfl

theorem specLatest_cons (t : Nat) (old n : NALU) (au : AU) :
    specLatest t old (n :: au) = specLatest t (if specIsType t n then n else old) au := by
  unfold specLatest
  by_cases h : specIsType t n = true
  · simp only [List.filter_cons, h, if_true, List.getLast?_cons]
    cases (List.filter (specIsType t) au).getLast? <;> rfl
  · simp only [List.filter_cons, h, if_false, Bool.false_eq_true]

theorem specRetained_cons (n : NALU) (au : AU) :
    specRetained (n :: au) =
      (if specIsType NALUTypeSPS n || specIsType NALUTypePPS n
          || specIsType NALUTypeAccessUnitDelimiter n then [] else [n]) ++ specRetained au := by
  unfold specRetained
  rw [List.filter_cons]
  cases (specIsType NALUTypeSPS n || specIsType NALUTypePPS n
          || specIsType NALUTypeAccessUnitDelimiter n) <;> rfl

/-- One iteration of the loop on a non-empty NAL unit, in the vocabulary of the
specification. -/
theorem scanStep_cons (s : Scan) (b : Nat) (l : List Nat) :
    scanStep s (b :: l) = some
      { sps := if specIsType NALUTypeSPS (b :: l) then b :: l else s.sps
        pps := if specIsType NALUTypePPS (b :: l) then b :: l else s.pps
        filteredAU := s.filteredAU ++
          (if specIsType NALUTypeSPS (b :: l) || specIsType NALUTypePPS (b :: l)
              || specIsType NALUTypeAccessUnitDelimiter (b :: l) then [] else [b :: l])
        nonIDRPresent := s.nonIDRPresent || specIsType NALUTypeNonIDR (b :: l)
        idrPresent := s.idrPresent || specIsType NALUTypeIDR (b :: l) } := by
  simp only [scanStep, specIsType_cons, NALUTypeSPS, NALUTypePPS,
    NALUTypeAccessUnitDelimiter, NALUTypeIDR, NALUTypeNonIDR]
  obtain ⟨sps, pps, fa, ni, ip⟩ := s
  split_ifs <;> simp_all

/-- The loop completes exactly on the access units without a zero-length NAL unit. -/
theorem scan_eq_none_iff (s : Scan) (au : AU) : scan s au = none ↔ ∃ n ∈ au, n = [] := by
  induction au generalizing s with
  | nil => simp [scan]
  | cons n rest ih =>
    cases n with
    | nil => simp [scan, scanStep]
    | cons b l =>
      simp only [scan, scanStep_cons, ih, List.mem_cons]
      constructor
      · rintro ⟨m, hm, rfl⟩
        exact ⟨[], Or.inr hm, rfl⟩
      · rintro ⟨m, hm | hm, rfl⟩
        · cases hm
        · exact ⟨[], hm, rfl⟩

/-- What the loop computes when it completes, in the vocabulary of the specification. -/
theorem scan_eq_some (s s1 : Scan) (au : AU) (h : scan s au = some s1) :
    s1 = { sps := specLatest NALUTypeSPS s.sps au
           pps := specLatest NALUTypePPS s.pps au
           filteredAU := s.filteredAU ++ specRetained au
           nonIDRPresent := s.nonIDRPresent || au.any (specIsType NALUTypeNonIDR)
           idrPresent := s.idrPresent || au.any (specIsType NALUTypeIDR) } := by
  induction au generalizing s with
  | nil =>
    simp only [scan, Option.some.injEq] at h
    subst h
    simp [specLatest_nil, specRetained]
  | cons n rest ih =>
    cases n with
    | nil => simp [scan, scanStep] at h
    | cons b l =>
      simp only [scan, scanStep_cons] at h
      rw [ih _ h]
      simp only [specLatest_cons, specRetained_cons, List.any_cons, List.append_assoc,
        Bool.or_assoc]

theorem scan_isSome (s : Scan) (au : AU) (h : specNonEmptyNALUs au) :
    ∃ s1, scan s au = some s1 := by
  cases hs : scan s au with
  | some s1 => exact ⟨s1, rfl⟩
  | none =>
    obtain ⟨n, hn, rfl⟩ := (scan_eq_none_iff s au).1 hs
    exact absurd rfl (h [] hn)

theorem any_specIsType_iff (t : Nat) (au : AU) :
    au.any (specIsType t) = true ↔ specContains t au := by
  simp [specContains, specIsType, List.any_eq_true]

theorem specRetained_ne_nil_of_idr (au : AU) (h : specContains NALUTypeIDR au) :
    specRetained au ≠ [] := by
  obtain ⟨n, hn, ht⟩ := h
  apply List.ne_nil_of_mem (a := n)
  unfold specRetained
  rw [List.mem_filter]
  refine ⟨hn, ?_⟩
  simp [specIsType, ht, NALUTypeIDR, NALUTypeSPS, NALUTypePPS, NALUTypeAccessUnitDelimiter]

theorem specRetained_ne_nil_of_nonIDR (au : AU) (h : specContains NALUTypeNonIDR au) :
    specRetained au ≠ [] := by
  obtain ⟨n, hn, ht⟩ := h
  apply List.ne_nil_of_mem (a := n)
  unfold specRetained
  rw [List.mem_filter]
  refine ⟨hn, ?_⟩
  simp [specIsType, ht, NALUTypeNonIDR, NALUTypeSPS, NALUTypePPS, NALUTypeAccessUnitDelimiter]

theorem specRetained_nonEmpty (au : AU) (h : specNonEmptyNALUs au) :
    ∀ n ∈ specRetained au, n ≠ [] := by
  intro n hn
  exact h n (List.mem_of_mem_filter hn)

/-- The method, with the loop replaced by what it computes. -/
theorem writeH264_eq_afterScan {D W : Type} (c : Codec D W) (e : mpegtsMuxer D W) (au : AU)
    (pts : Int) (h : specNonEmptyNALUs au) :
    writeH264 c e au pts = afterScan c
          { e with sps := specLatest NALUTypeSPS e.sps au, pps := specLatest NALUTypePPS e.pps au }
          (specRetained au) (au.any (specIsType NALUTypeIDR))
          (au.any (specIsType NALUTypeNonIDR)) pts := by
  obtain ⟨s, hs⟩ := scan_isSome (Scan.mk e.sps e.pps [] false false) au h
  have hs1 := scan_eq_some _ _ _ hs
  simp only [List.nil_append, Bool.false_or] at hs1
  unfold writeH264
  rw [hs]
  subst hs1
  obtain ⟨fn, sps, pps, f, w, d⟩ := e
  cases d <;> rfl

theorem writeH264_panics_in_loop {D W : Type} (c : Codec D W) (e : mpegtsMuxer D W) (au : AU)
    (pts : Int) (h : ∃ n ∈ au, n = []) : writeH264 c e au pts = Outcome.panicked [] := by
  have hs := (scan_eq_none_iff (Scan.mk e.sps e.pps [] false false) au).2 h
  unfold writeH264
  rw [hs]

/-- The method in the vocabulary of the specification, on an access unit without
zero-length NAL unit: dropped or gated, or handed to `Extract` and from there on. -/
theorem writeH264_spec {D W : Type} (c : Codec D W) (e : mpegtsMuxer D W) (au : AU)
    (pts : Int) (h : specNonEmptyNALUs au) :
    writeH264 c e au pts =
      if specTimestamped e.dtsExtractor.isSome au then
        extractAndWrite c
          { e with sps := specLatest NALUTypeSPS e.sps au, pps := specLatest NALUTypePPS e.pps au }
          (e.dtsExtractor.getD c.dtsInit) (callsBeforeExtract e.dtsExtractor)
          (specHandedAU e.sps e.pps au) pts
      else
        Outcome.returned
          { muxer := { e with sps := specLatest NALUTypeSPS e.sps au,
                              pps := specLatest NALUTypePPS e.pps au }
            err := none
            calls := [] } := by
  rw [writeH264_eq_afterScan c e au pts h]
  unfold afterScan specTimestamped specHandedAU
  by_cases hidr : specContains NALUTypeIDR au
  · have hk : (specRetained au).isEmpty = false := by
      have := specRetained_ne_nil_of_idr au hidr
      cases hk : specRetained au <;> simp_all
    have hidr1 := (any_specIsType_iff NALUTypeIDR au).2 hidr
    simp only [hidr1, hk, hidr, true_or, if_true, Bool.not_true, Bool.false_and, Bool.or_false,
      Bool.false_eq_true, if_false]
    cases hd : e.dtsExtractor <;> rfl
  · have hidr1 : au.any (specIsType NALUTypeIDR) = false := by
      rw [← Bool.not_eq_true, any_specIsType_iff]; exact hidr
    by_cases hnon : specContains NALUTypeNonIDR au
    · have hk : (specRetained au).isEmpty = false := by
        have := specRetained_ne_nil_of_nonIDR au hnon
        cases hk : specRetained au <;> simp_all
      have hnon1 := (any_specIsType_iff NALUTypeNonIDR au).2 hnon
      cases hd : e.dtsExtractor <;>
        simp [hidr1, hnon1, hk, hidr, hnon, hd, callsBeforeExtract]
    · have hnon1 : au.any (specIsType NALUTypeNonIDR) = false := by
        rw [← Bool.not_eq_true, any_specIsType_iff]; exact hnon
      simp [hidr1, hnon1, hidr, hnon]

theorem extractAndWrite_ne_panicked_nil {D W : Type} (c : Codec D W) (e : mpegtsMuxer D W)
    (d : D) (pre : List Call) (au : AU) (pts : Int) :
    extractAndWrite c e d pre au pts ≠ Outcome.panicked [] := by
  unfold extractAndWrite
  rcases hx : c.dtsExtract d au pts with _ | ⟨d1, _ | dts⟩ <;> simp

theorem writeH264_panicked_nil_iff {D W : Type} (c : Codec D W) (e : mpegtsMuxer D W)
    (au : AU) (pts : Int) :
    writeH264 c e au pts = Outcome.panicked [] ↔ ∃ n ∈ au, n = [] := by
  constructor
  · intro hw
    by_contra hne
    have hne1 : specNonEmptyNALUs au := fun n hn hnil => hne ⟨n, hn, hnil⟩
    rw [writeH264_spec c e au pts hne1] at hw
    split_ifs at hw
    exact extractAndWrite_ne_panicked_nil _ _ _ _ _ _ hw
  · exact writeH264_panics_in_loop c e au pts

theorem extractAndWrite_calls {D W : Type} (c : Codec D W) (e : mpegtsMuxer D W) (d : D)
    (pre : List Call) (au : AU) (pts : Int) :
    externalCalls (extractAndWrite c e d pre au pts) =
      pre ++ Call.extract au pts ::
        (match c.dtsExtract d au pts with
         | some (_, Except.ok dts) => [Call.write pts dts au]
         | _ => []) := by
  unfold extractAndWrite
  rcases hx : c.dtsExtract d au pts with _ | ⟨d1, _ | dts⟩ <;> simp [externalCalls]

theorem extractAndWrite_returned {D W : Type} (c : Codec D W) (e : mpegtsMuxer D W) (d : D)
    (pre : List Call) (au : AU) (pts : Int) (r : WriteResult D W)
    (h : extractAndWrite c e d pre au pts = Outcome.returned r) :
    r.muxer.sps = e.sps ∧ r.muxer.pps = e.pps ∧
    ∃ d1 res, c.dtsExtract d au pts = some (d1, res) ∧ r.muxer.dtsExtractor = some d1 := by
  unfold extractAndWrite at h
  rcases hx : c.dtsExtract d au pts with _ | ⟨d1, err | dts⟩ <;> simp only [hx] at h
  · cases h
  · cases h
    exact ⟨rfl, rfl, d1, _, rfl, rfl⟩
  · cases h
    exact ⟨rfl, rfl, d1, _, rfl, rfl⟩

theorem extractAndWrite_isReturned {D W : Type} (c : Codec D W) (e : mpegtsMuxer D W) (d : D)
    (pre : List Call) (au : AU) (pts : Int) :
    (∃ r, extractAndWrite c e d pre au pts = Outcome.returned r) ↔
      c.dtsExtract d au pts ≠ none := by
  unfold extractAndWrite
  rcases hx : c.dtsExtract d au pts with _ | ⟨d1, err | dts⟩ <;> simp

theorem callsBeforeExtract_no_handedAU {D : Type} (d : Option D) :
    ∀ call ∈ callsBeforeExtract d, call = Call.newDTSExtractor := by
  intro call h
  cases d <;> simp [callsBeforeExtract] at h
  exact h

theorem specHandedAU_of_idr (sps pps : NALU) (au : AU) (h : specContains NALUTypeIDR au) :
    specHandedAU sps pps au = specKeyframeAU sps pps au := by
  simp [specHandedAU, h]

theorem specTimestamped_of_idr (b : Bool) (au : AU) (h : specContains NALUTypeIDR au) :
    specTimestamped b au := Or.inl h

/-! ## Claims about `writeH264` -/

/-- C1. For every recorder state and every access unit containing an IDR NAL unit, every
access unit that `writeH264` hands to the estimator or to the writer is exactly: the cached
SPS, the cached PPS (as the cache stands after this access unit), then the retained NAL
units in their original order. More precisely, when no NAL unit is empty the call does the
following and nothing else: it creates the estimator if there is none, calls `Extract` on
that access unit with the estimator it holds, and, when `Extract` returned a decode
timestamp, calls `WriteH264` on the writer it holds with the presentation timestamp, that
decode timestamp and the same access unit, and returns the writer's error; it returns the
estimator's error without writing when `Extract` returned one, and it does not return when
`Extract` panics. With a zero-length NAL unit the call panics in the loop and hands nothing
over. -/
theorem writeH264_keyframe_access_unit {D W : Type} (c : Codec D W) (e : mpegtsMuxer D W)
    (au : AU) (pts : Int) (hidr : specContains NALUTypeIDR au) :
    (∀ call ∈ externalCalls (writeH264 c e au pts), ∀ a, call.handedAU = some a →
      a = specKeyframeAU e.sps e.pps au) ∧
    writeH264 c e au pts =
      if specNonEmptyNALUs au then
        match c.dtsExtract (e.dtsExtractor.getD c.dtsInit) (specKeyframeAU e.sps e.pps au) pts with
        | none =>
          Outcome.panicked (callsBeforeExtract e.dtsExtractor ++
            [Call.extract (specKeyframeAU e.sps e.pps au) pts])
        | some (d1, Except.error err) =>
          Outcome.returned
            { muxer := { e with sps := specLatest NALUTypeSPS e.sps au,
                                pps := specLatest NALUTypePPS e.pps au,
                                dtsExtractor := some d1 }
              err := some err
              calls := callsBeforeExtract e.dtsExtractor ++
                [Call.extract (specKeyframeAU e.sps e.pps au) pts] }
        | some (d1, Except.ok dts) =>
          Outcome.returned
            { muxer := { e with sps := specLatest NALUTypeSPS e.sps au,
                                pps := specLatest NALUTypePPS e.pps au,
                                dtsExtractor := some d1,
                                w := (c.tsWrite e.w pts dts (specKeyframeAU e.sps e.pps au)).1 }
              err := (c.tsWrite e.w pts dts (specKeyframeAU e.sps e.pps au)).2
              calls := callsBeforeExtract e.dtsExtractor ++
                [Call.extract (specKeyframeAU e.sps e.pps au) pts,
                 Call.write pts dts (specKeyframeAU e.sps e.pps au)] }
      else Outcome.panicked [] := by
  constructor
  · intro call hcall a ha
    by_cases hne : specNonEmptyNALUs au
    · rw [writeH264_spec c e au pts hne, if_pos (specTimestamped_of_idr _ au hidr),
        specHandedAU_of_idr _ _ au hidr, extractAndWrite_calls] at hcall
      simp only [List.mem_append, List.mem_cons] at hcall
      rcases hcall with hcall | hcall | hcall
      · rw [callsBeforeExtract_no_handedAU _ call hcall] at ha
        cases ha
      · subst hcall
        simp only [Call.handedAU, Option.some.injEq] at ha
        exact ha.symm
      · split at hcall
        · simp only [List.mem_singleton] at hcall
          subst hcall
          simp only [Call.handedAU, Option.some.injEq] at ha
          exact ha.symm
        · cases hcall
    · have hex : ∃ n ∈ au, n = [] := by
        simp only [specNonEmptyNALUs, not_forall] at hne
        obtain ⟨n, hn, hnil⟩ := hne
        exact ⟨n, hn, not_not.1 hnil⟩
      rw [writeH264_panics_in_loop c e au pts hex] at hcall
      simp [externalCalls] at hcall
  · by_cases hne : specNonEmptyNALUs au
    · rw [if_pos hne, writeH264_spec c e au pts hne, if_pos (specTimestamped_of_idr _ au hidr),
        specHandedAU_of_idr _ _ au hidr]
      unfold extractAndWrite
      rcases hx : c.dtsExtract (e.dtsExtractor.getD c.dtsInit)
        (specKeyframeAU e.sps e.pps au) pts with _ | ⟨d1, err | dts⟩ <;> rfl
    · have hex : ∃ n ∈ au, n = [] := by
        simp only [specNonEmptyNALUs, not_forall] at hne
        obtain ⟨n, hn, hnil⟩ := hne
        exact ⟨n, hn, not_not.1 hnil⟩
      rw [if_neg hne, writeH264_panics_in_loop c e au pts hex]

/-- C1, witness: a fresh recorder and the access unit SPS, PPS, delimiter, IDR. -/
theorem writeH264_keyframe_access_unit_witness :
    specContains NALUTypeIDR [[0x67, 0x42], [0x68, 0xCE], [0x09, 0xF0], [0x65, 0x88]] ∧
    ∀ call ∈ externalCalls (writeH264 demoCodec demoMuxer
        [[0x67, 0x42], [0x68, 0xCE], [0x09, 0xF0], [0x65, 0x88]] 40),
      ∀ a, call.handedAU = some a → a = [[0x67, 0x42], [0x68, 0xCE], [0x65, 0x88]] :=
  ⟨by decide,
   (writeH264_keyframe_access_unit demoCodec demoMuxer
      [[0x67, 0x42], [0x68, 0xCE], [0x09, 0xF0], [0x65, 0x88]] 40 (by decide)).1⟩

/-- C2, as amended. For every recorder state and every access unit whose NAL units are all
non-empty and whose filtered output is empty or which contains neither an IDR nor a
non-IDR slice, `writeH264` returns nil, makes no external call (it neither creates nor
invokes the estimator nor calls the writer) and leaves estimator and writer as they
were. -/
theorem writeH264_drop {D W : Type} (c : Codec D W) (e : mpegtsMuxer D W) (au : AU)
    (pts : Int) (hne : specNonEmptyNALUs au)
    (h : specRetained au = [] ∨
      (¬ specContains NALUTypeIDR au ∧ ¬ specContains NALUTypeNonIDR au)) :
    writeH264 c e au pts = Outcome.returned
      { muxer := { e with sps := specLatest NALUTypeSPS e.sps au,
                          pps := specLatest NALUTypePPS e.pps au }
        err := none
        calls := [] } := by
  rw [writeH264_spec c e au pts hne, if_neg]
  rintro (hidr | ⟨hnon, -⟩)
  · rcases h with h | ⟨h1, -⟩
    · exact specRetained_ne_nil_of_idr au hidr h
    · exact h1 hidr
  · rcases h with h | ⟨-, h2⟩
    · exact specRetained_ne_nil_of_nonIDR au hnon h
    · exact h2 hnon

/-- C2, witness: an access unit made of a delimiter, an SPS and a PPS is dropped, and the
cache takes the two parameter sets. -/
theorem writeH264_drop_witness :
    specNonEmptyNALUs [[0x09, 0xF0], [0x67, 0x42], [0x68, 0xCE]] ∧
    writeH264 demoCodec demoMuxer [[0x09, 0xF0], [0x67, 0x42], [0x68, 0xCE]] 40 =
      Outcome.returned
        { muxer := { demoMuxer with sps := [0x67, 0x42], pps := [0x68, 0xCE] }
          err := none
          calls := [] } :=
  ⟨by decide,
   writeH264_drop demoCodec demoMuxer [[0x09, 0xF0], [0x67, 0x42], [0x68, 0xCE]] 40
     (by decide) (Or.inl (by decide))⟩

/-- C2, counterexample. The access unit made of one zero-length NAL unit contains neither
an IDR nor a non-IDR slice, yet `writeH264` does not return nil on it: the loop fails with
an index out of range. -/
theorem writeH264_drop_counterexample :
    (¬ specContains NALUTypeIDR [[]] ∧ ¬ specContains NALUTypeNonIDR [[]]) ∧
    writeH264 demoCodec demoMuxer [[]] 40 = Outcome.panicked [] :=
  ⟨by decide, rfl⟩

/-- C8. For every recorder state and every access unit, when `writeH264` has returned
(dropped, gated, failed in the estimator, or muxed) the cached SPS is the last SPS NAL unit
of the access unit if there is one and is otherwise unchanged, and likewise the cached PPS
for PPS NAL units. The call returns exactly when no NAL unit is empty and, if the access
unit gets past the drop and the gate, `Extract` does not panic on what it is handed. -/
theorem writeH264_parameter_set_cache {D W : Type} (c : Codec D W) (e : mpegtsMuxer D W)
    (au : AU) (pts : Int) :
    ((∃ r, writeH264 c e au pts = Outcome.returned r) ↔
      specNonEmptyNALUs au ∧
        (specTimestamped e.dtsExtractor.isSome au →
          c.dtsExtract (e.dtsExtractor.getD c.dtsInit) (specHandedAU e.sps e.pps au) pts
            ≠ none)) ∧
    ∀ r, writeH264 c e au pts = Outcome.returned r →
      r.muxer.sps = specLatest NALUTypeSPS e.sps au ∧
      r.muxer.pps = specLatest NALUTypePPS e.pps au := by
  by_cases hne : specNonEmptyNALUs au
  · rw [writeH264_spec c e au pts hne]
    by_cases ht : specTimestamped e.dtsExtractor.isSome au
    · rw [if_pos ht, extractAndWrite_isReturned]
      refine ⟨⟨fun h => ⟨hne, fun _ => h⟩, fun h => h.2 ht⟩, fun r hr => ?_⟩
      obtain ⟨h1, h2, -⟩ := extractAndWrite_returned _ _ _ _ _ _ r hr
      exact ⟨h1, h2⟩
    · rw [if_neg ht]
      refine ⟨⟨fun _ => ⟨hne, fun h => absurd h ht⟩, fun _ => ⟨_, rfl⟩⟩, fun r hr => ?_⟩
      cases hr
      exact ⟨rfl, rfl⟩
  · have hex : ∃ n ∈ au, n = [] := by
      simp only [specNonEmptyNALUs, not_forall] at hne
      obtain ⟨n, hn, hnil⟩ := hne
      exact ⟨n, hn, not_not.1 hnil⟩
    rw [writeH264_panics_in_loop c e au pts hex]
    refine ⟨⟨?_, fun h => absurd h.1 hne⟩, ?_⟩
    · rintro ⟨r, hr⟩
      cases hr
    · intro r hr
      cases hr

/-- C9, as amended. For every recorder whose parameter-set cache is empty (no SPS or no PPS
cached, and none in the access unit) and every IDR-bearing access unit without a
zero-length NAL unit, the timestamp gate does not hold the access unit back: `writeH264`
creates the estimator if there is none and calls `Extract` on the access unit with the
empty prepended entry. What keeps that access unit from the writer is the estimator, which
gives no decode timestamp for it: the call panics inside `Extract`, always so when the SPS
entry is the empty one, or returns the error of `Extract`; in both cases the writer is not
called. -/
theorem writeH264_empty_cache_crosses_gate {D W : Type} (c : Codec D W)
    (e : mpegtsMuxer D W) (au : AU) (pts : Int)
    (hne : specNonEmptyNALUs au) (hidr : specContains NALUTypeIDR au)
    (hempty : (e.sps = [] ∧ ¬ specContains NALUTypeSPS au) ∨
              (e.pps = [] ∧ ¬ specContains NALUTypePPS au)) :
    ((specKeyframeAU e.sps e.pps au)[0]? = some [] ∨
     (specKeyframeAU e.sps e.pps au)[1]? = some []) ∧
    (writeH264 c e au pts =
        Outcome.panicked (callsBeforeExtract e.dtsExtractor ++
          [Call.extract (specKeyframeAU e.sps e.pps au) pts]) ∨
      ∃ d1 err,
        c.dtsExtract (e.dtsExtractor.getD c.dtsInit) (specKeyframeAU e.sps e.pps au) pts
          = some (d1, Except.error err) ∧
        writeH264 c e au pts = Outcome.returned
          { muxer := { e with sps := specLatest NALUTypeSPS e.sps au,
                              pps := specLatest NALUTypePPS e.pps au,
                              dtsExtractor := some d1 }
            err := some err
            calls := callsBeforeExtract e.dtsExtractor ++
              [Call.extract (specKeyframeAU e.sps e.pps au) pts] }) ∧
    ((e.sps = [] ∧ ¬ specContains NALUTypeSPS au) →
      writeH264 c e au pts =
        Outcome.panicked (callsBeforeExtract e.dtsExtractor ++
          [Call.extract (specKeyframeAU e.sps e.pps au) pts])) := by
  have hlatest : ∀ t old, old = [] → ¬ specContains t au → specLatest t old au = [] := by
    intro t old ho hc
    have hf : au.filter (specIsType t) = [] := by
      rw [List.filter_eq_nil_iff]
      intro n hn hn1
      exact hc ⟨n, hn, by simpa [specIsType] using hn1⟩
    simp [specLatest, hf, ho]
  have hentry : (specKeyframeAU e.sps e.pps au)[0]? = some [] ∨
      (specKeyframeAU e.sps e.pps au)[1]? = some [] := by
    rcases hempty with ⟨h1, h2⟩ | ⟨h1, h2⟩
    · left; simp [specKeyframeAU, hlatest _ _ h1 h2]
    · right; simp [specKeyframeAU, hlatest _ _ h1 h2]
  have hmem : [] ∈ specKeyframeAU e.sps e.pps au := by
    rcases hempty with ⟨h1, h2⟩ | ⟨h1, h2⟩
    · simp [specKeyframeAU, hlatest _ _ h1 h2]
    · simp [specKeyframeAU, hlatest _ _ h1 h2]
  have hw := writeH264_spec c e au pts hne
  rw [if_pos (specTimestamped_of_idr _ au hidr), specHandedAU_of_idr _ _ au hidr] at hw
  unfold extractAndWrite at hw
  refine ⟨hentry, ?_, ?_⟩
  · rcases hx : c.dtsExtract (e.dtsExtractor.getD c.dtsInit)
      (specKeyframeAU e.sps e.pps au) pts with _ | ⟨d1, err | dts⟩
    · left
      rw [hw, hx]
    · right
      refine ⟨d1, err, rfl, ?_⟩
      rw [hw, hx]
    · exact absurd rfl (c.extract_ok _ _ _ _ _ hx [] hmem)
  · rintro ⟨h1, h2⟩
    have hx : c.dtsExtract (e.dtsExtractor.getD c.dtsInit)
        (specKeyframeAU e.sps e.pps au) pts = none := by
      simp only [specKeyframeAU, hlatest _ _ h1 h2]
      exact c.extract_first _ _ _
    rw [hw, hx]

/-- C9, witness: a fresh recorder with an empty cache and the access unit delimiter, IDR:
the estimator is created and called on the access unit with two empty leading entries, and
the call panics there. -/
theorem writeH264_empty_cache_crosses_gate_witness :
    specNonEmptyNALUs [[0x09, 0xF0], [0x65, 0x88]] ∧
    specContains NALUTypeIDR [[0x09, 0xF0], [0x65, 0x88]] ∧
    writeH264 demoCodec demoMuxer [[0x09, 0xF0], [0x65, 0x88]] 40 =
      Outcome.panicked [Call.newDTSExtractor, Call.extract [[], [], [0x65, 0x88]] 40] :=
  ⟨by decide, by decide,
   (writeH264_empty_cache_crosses_gate demoCodec demoMuxer [[0x09, 0xF0], [0x65, 0x88]] 40
      (by decide) (by decide) (Or.inl ⟨rfl, by decide⟩)).2.2 ⟨rfl, by decide⟩⟩

/-- C9, counterexample. A fresh recorder with an empty cache and the access unit of one IDR
slice: the timestamp gate does not stop the access unit. The call creates the estimator,
hands it the access unit with two empty leading entries, and does not return: the process
panics inside `Extract`. -/
theorem writeH264_empty_cache_counterexample :
    demoMuxer.sps = [] ∧ demoMuxer.pps = [] ∧ demoMuxer.dtsExtractor = none ∧
    specContains NALUTypeIDR [[0x65, 0x88]] ∧
    writeH264 demoCodec demoMuxer [[0x65, 0x88]] 40 =
      Outcome.panicked [Call.newDTSExtractor, Call.extract [[], [], [0x65, 0x88]] 40] :=
  ⟨rfl, rfl, rfl, by decide, rfl⟩

/-- C10. The loop of `writeH264` reads the first byte of every NAL unit without a length
check: on an access unit whose NAL units are all non-empty it completes and classifies
each unit by its first byte masked with `0x1F` (parameter sets go to the cache, access
unit delimiters are skipped, the rest is kept, IDR and non-IDR slices set their flags), so
that `writeH264` does not fail before its first external call; on an access unit that
contains a zero-length NAL unit the loop fails, and `writeH264` panics before any external
call. -/
theorem writeH264_scan_first_byte {D W : Type} (c : Codec D W) (e : mpegtsMuxer D W)
    (s : Scan) (au : AU) (pts : Int) :
    (specNonEmptyNALUs au →
      scan s au = some
        { sps := specLatest NALUTypeSPS s.sps au
          pps := specLatest NALUTypePPS s.pps au
          filteredAU := s.filteredAU ++ specRetained au
          nonIDRPresent := s.nonIDRPresent || au.any (specIsType NALUTypeNonIDR)
          idrPresent := s.idrPresent || au.any (specIsType NALUTypeIDR) } ∧
      writeH264 c e au pts ≠ Outcome.panicked []) ∧
    ((∃ n ∈ au, n = []) → scan s au = none ∧ writeH264 c e au pts = Outcome.panicked []) := by
  constructor
  · intro hne
    obtain ⟨s1, hs1⟩ := scan_isSome s au hne
    refine ⟨by rw [hs1, scan_eq_some s s1 au hs1], fun hp => ?_⟩
    obtain ⟨n, hn, hnil⟩ := (writeH264_panicked_nil_iff c e au pts).1 hp
    exact hne n hn hnil
  · intro h
    exact ⟨(scan_eq_none_iff s au).2 h, writeH264_panics_in_loop c e au pts h⟩

/-! ## The timestamp gate over a run of calls -/

theorem not_nonEmpty_iff (au : AU) : ¬ specNonEmptyNALUs au ↔ ∃ n ∈ au, n = [] := by
  constructor
  · intro hne
    simp only [specNonEmptyNALUs, not_forall] at hne
    obtain ⟨n, hn, hnil⟩ := hne
    exact ⟨n, hn, not_not.1 hnil⟩
  · rintro ⟨n, hn, hnil⟩ h
    exact h n hn hnil

/-- Without an estimator, an access unit without IDR makes no external call, and if the
call returns it returns nil and leaves the recorder without estimator and the writer as it
was. -/
theorem writeH264_gate {D W : Type} (c : Codec D W) (e : mpegtsMuxer D W) (au : AU)
    (pts : Int) (hfresh : e.dtsExtractor = none) (hidr : ¬ specContains NALUTypeIDR au) :
    externalCalls (writeH264 c e au pts) = [] ∧
    ∀ r, writeH264 c e au pts = Outcome.returned r →
      r.err = none ∧ r.muxer.dtsExtractor = none ∧ r.muxer.w = e.w := by
  by_cases hne : specNonEmptyNALUs au
  · have ht : ¬ specTimestamped e.dtsExtractor.isSome au := by
      rintro (h | ⟨-, h⟩)
      · exact hidr h
      · simp [hfresh] at h
    rw [writeH264_spec c e au pts hne, if_neg ht]
    refine ⟨rfl, fun r hr => ?_⟩
    cases hr
    exact ⟨rfl, hfresh, rfl⟩
  · rw [writeH264_panics_in_loop c e au pts ((not_nonEmpty_iff au).1 hne)]
    refine ⟨rfl, fun r hr => ?_⟩
    cases hr

/-- Without an estimator, a call on an access unit with an IDR that gets past the loop
creates the estimator, once and before its `Extract`; the estimator it leaves is the new
one, in the state its first `Extract` left. -/
theorem writeH264_creates {D W : Type} (c : Codec D W) (e : mpegtsMuxer D W) (au : AU)
    (pts : Int) (hfresh : e.dtsExtractor = none) (hidr : specContains NALUTypeIDR au) :
    (specNonEmptyNALUs au → ∃ a tl,
      externalCalls (writeH264 c e au pts) = Call.newDTSExtractor :: Call.extract a pts :: tl ∧
      Call.newDTSExtractor ∉ tl) ∧
    (¬ specNonEmptyNALUs au → writeH264 c e au pts = Outcome.panicked []) ∧
    ∀ r, writeH264 c e au pts = Outcome.returned r →
      ∃ a d1 res, c.dtsExtract c.dtsInit a pts = some (d1, res) ∧
        r.muxer.dtsExtractor = some d1 := by
  refine ⟨fun hne => ?_, fun hne => ?_, fun r hr => ?_⟩
  · rw [writeH264_spec c e au pts hne, if_pos (specTimestamped_of_idr _ au hidr),
      extractAndWrite_calls, hfresh]
    refine ⟨_, _, rfl, ?_⟩
    split <;> simp
  · exact writeH264_panics_in_loop c e au pts ((not_nonEmpty_iff au).1 hne)
  · by_cases hne : specNonEmptyNALUs au
    · rw [writeH264_spec c e au pts hne, if_pos (specTimestamped_of_idr _ au hidr),
        hfresh] at hr
      obtain ⟨-, -, d1, res, hx, hd⟩ := extractAndWrite_returned _ _ _ _ _ _ r hr
      exact ⟨_, d1, res, hx, hd⟩
    · rw [writeH264_panics_in_loop c e au pts ((not_nonEmpty_iff au).1 hne)] at hr
      cases hr

/-- With an estimator, no call creates another one, and a call that returns leaves that
estimator, untouched or in the state its own `Extract` on the handed access unit left. -/
theorem writeH264_keeps {D W : Type} (c : Codec D W) (e : mpegtsMuxer D W) (au : AU)
    (pts : Int) (d : D) (hd : e.dtsExtractor = some d) :
    Call.newDTSExtractor ∉ externalCalls (writeH264 c e au pts) ∧
    ∀ r, writeH264 c e au pts = Outcome.returned r →
      (r.muxer.dtsExtractor = some d ∨
        ∃ d1 res, c.dtsExtract d (specHandedAU e.sps e.pps au) pts = some (d1, res) ∧
          r.muxer.dtsExtractor = some d1) := by
  by_cases hne : specNonEmptyNALUs au
  · rw [writeH264_spec c e au pts hne]
    by_cases ht : specTimestamped e.dtsExtractor.isSome au
    · rw [if_pos ht, hd]
      refine ⟨?_, fun r hr => ?_⟩
      · rw [extractAndWrite_calls]
        split <;> simp [callsBeforeExtract]
      · obtain ⟨-, -, d1, res, hx, hd1⟩ := extractAndWrite_returned _ _ _ _ _ _ r hr
        exact Or.inr ⟨d1, res, hx, hd1⟩
    · rw [if_neg ht]
      refine ⟨by simp [externalCalls], fun r hr => ?_⟩
      cases hr
      exact Or.inl hd
  · rw [writeH264_panics_in_loop c e au pts ((not_nonEmpty_iff au).1 hne)]
    refine ⟨by simp [externalCalls], fun r hr => ?_⟩
    cases hr

theorem writeAll_zero {D W : Type} (c : Codec D W) (e : mpegtsMuxer D W) (au : AU)
    (pts : Int) (rest : List (AU × Int)) :
    (writeAll c e ((au, pts) :: rest))[0]? = some (writeH264 c e au pts) := by
  simp only [writeAll]
  cases writeH264 c e au pts <;> simp

theorem writeAll_succ {D W : Type} (c : Codec D W) (e : mpegtsMuxer D W) (au : AU)
    (pts : Int) (rest : List (AU × Int)) (i : Nat) :
    (writeAll c e ((au, pts) :: rest))[i + 1]? =
      match writeH264 c e au pts with
      | Outcome.returned r => (writeAll c r.muxer rest)[i]?
      | Outcome.panicked _ => none := by
  simp only [writeAll]
  cases writeH264 c e au pts <;> simp

/-- In a run, the call after one that returned is made on the recorder that call left. -/
theorem writeAll_next {D W : Type} (c : Codec D W) (calls : List (AU × Int)) :
    ∀ (e : mpegtsMuxer D W) (j : Nat) (r0 : WriteResult D W) (a : AU) (p : Int),
      (writeAll c e calls)[j]? = some (Outcome.returned r0) →
      calls[j + 1]? = some (a, p) →
      (writeAll c e calls)[j + 1]? = some (writeH264 c r0.muxer a p) := by
  induction calls with
  | nil => intro e j r0 a p h; simp [writeAll] at h
  | cons x rest ih =>
    intro e j r0 a p h hc
    obtain ⟨au, pts⟩ := x
    cases j with
    | zero =>
      rw [writeAll_zero, Option.some.injEq] at h
      rw [writeAll_succ, h]
      simp only [zero_add, List.getElem?_cons_succ] at hc
      cases rest with
      | nil => simp at hc
      | cons y rest1 =>
        obtain ⟨a1, p1⟩ := y
        simp only [List.getElem?_cons_zero, Option.some.injEq, Prod.mk.injEq] at hc
        obtain ⟨rfl, rfl⟩ := hc
        exact writeAll_zero c r0.muxer a1 p1 rest1
    | succ j =>
      rw [writeAll_succ] at h ⊢
      simp only [List.getElem?_cons_succ] at hc
      cases hw : writeH264 c e au pts with
      | panicked cs => simp [hw] at h
      | returned r1 =>
        simp only [hw] at h ⊢
        exact ih r1.muxer j r0 a p h hc

/-- Once the estimator exists, it exists after every later call of the run that returns. -/
theorem writeAll_estimator_present {D W : Type} (c : Codec D W) (calls : List (AU × Int)) :
    ∀ (e : mpegtsMuxer D W), e.dtsExtractor ≠ none →
      ∀ (j : Nat) (r : WriteResult D W),
        (writeAll c e calls)[j]? = some (Outcome.returned r) → r.muxer.dtsExtractor ≠ none := by
  induction calls with
  | nil => intro e _ j r h; simp [writeAll] at h
  | cons x rest ih =>
    intro e he j r h
    obtain ⟨au, pts⟩ := x
    obtain ⟨d, hd⟩ := Option.ne_none_iff_exists'.1 he
    have hk := (writeH264_keeps c e au pts d hd).2
    cases j with
    | zero =>
      rw [writeAll_zero, Option.some.injEq] at h
      rcases hk r h with h1 | ⟨d1, res, -, h1⟩ <;> simp [h1]
    | succ j =>
      rw [writeAll_succ] at h
      cases hw : writeH264 c e au pts with
      | panicked cs => simp [hw] at h
      | returned r1 =>
        simp only [hw] at h
        have hr1 : r1.muxer.dtsExtractor ≠ none := by
          rcases hk r1 hw with h1 | ⟨d1, res, -, h1⟩ <;> simp [h1]
        exact ih r1.muxer hr1 j r h

/-- The run of calls up to and from the first access unit with an IDR. -/
theorem writeAll_first_idr {D W : Type} (c : Codec D W) (pre : List (AU × Int))
    (au : AU) (pts : Int) (post : List (AU × Int)) (hidr : specContains NALUTypeIDR au) :
    ∀ (e : mpegtsMuxer D W), e.dtsExtractor = none →
      (∀ x ∈ pre, ¬ specContains NALUTypeIDR x.1) →
      (∀ (i : Nat) (o : Outcome D W), i < pre.length →
        (writeAll c e (pre ++ (au, pts) :: post))[i]? = some o →
        externalCalls o = [] ∧
        ∀ r, o = Outcome.returned r →
          r.err = none ∧ r.muxer.dtsExtractor = none ∧ r.muxer.w = e.w) ∧
      (∀ (o : Outcome D W), (writeAll c e (pre ++ (au, pts) :: post))[pre.length]? = some o →
        (specNonEmptyNALUs au → ∃ a tl,
          externalCalls o = Call.newDTSExtractor :: Call.extract a pts :: tl ∧
          Call.newDTSExtractor ∉ tl) ∧
        (¬ specNonEmptyNALUs au → o = Outcome.panicked []) ∧
        ∀ r, o = Outcome.returned r →
          ∃ a d1 res, c.dtsExtract c.dtsInit a pts = some (d1, res) ∧
            r.muxer.dtsExtractor = some d1) ∧
      ((∀ x ∈ pre, specNonEmptyNALUs x.1) →
        ∃ o, (writeAll c e (pre ++ (au, pts) :: post))[pre.length]? = some o) ∧
      (∀ (j : Nat) (r : WriteResult D W), pre.length ≤ j →
        (writeAll c e (pre ++ (au, pts) :: post))[j]? = some (Outcome.returned r) →
        r.muxer.dtsExtractor ≠ none) := by
  induction pre with
  | nil =>
    intro e hfresh _
    have hc := writeH264_creates c e au pts hfresh hidr
    simp only [List.nil_append, List.length_nil]
    refine ⟨fun i o hi => absurd hi (by simp), fun o ho => ?_, fun _ => ⟨_, writeAll_zero _ _ _ _ _⟩,
      fun j r _ hj => ?_⟩
    · rw [writeAll_zero, Option.some.injEq] at ho
      subst ho
      exact ⟨hc.1, hc.2.1, hc.2.2⟩
    · cases j with
      | zero =>
        rw [writeAll_zero, Option.some.injEq] at hj
        obtain ⟨a, d1, res, -, h1⟩ := hc.2.2 r hj
        simp [h1]
      | succ j =>
        rw [writeAll_succ] at hj
        cases hw : writeH264 c e au pts with
        | panicked cs => simp [hw] at hj
        | returned r1 =>
          simp only [hw] at hj
          obtain ⟨a, d1, res, -, h1⟩ := hc.2.2 r1 hw
          exact writeAll_estimator_present c post r1.muxer (by simp [h1]) j r hj
  | cons x pre ih =>
    intro e hfresh hpre
    obtain ⟨au0, pts0⟩ := x
    have hx : ¬ specContains NALUTypeIDR au0 := hpre (au0, pts0) (List.mem_cons_self _ _)
    have hpre1 : ∀ y ∈ pre, ¬ specContains NALUTypeIDR y.1 :=
      fun y hy => hpre y (List.mem_cons_of_mem _ hy)
    have hg := writeH264_gate c e au0 pts0 hfresh hx
    simp only [List.cons_append, List.length_cons]
    cases hw : writeH264 c e au0 pts0 with
    | panicked cs =>
      have hcs : cs = [] := by
        have := hg.1
        rw [hw] at this
        exact this
      subst hcs
      have hnone : ∀ i, (writeAll c e ((au0, pts0) :: (pre ++ (au, pts) :: post)))[i + 1]? = none := by
        intro i
        rw [writeAll_succ, hw]
      refine ⟨fun i o _ ho => ?_, fun o ho => ?_, fun hne => ?_, fun j r hj hr => ?_⟩
      · cases i with
        | zero =>
          rw [writeAll_zero, Option.some.injEq, hw] at ho
          subst ho
          exact ⟨rfl, fun r hr => by cases hr⟩
        | succ i => rw [hnone] at ho; cases ho
      · rw [hnone] at ho; cases ho
      · exfalso
        have hp := (writeH264_panicked_nil_iff c e au0 pts0).1 hw
        exact (not_nonEmpty_iff au0).2 hp (hne (au0, pts0) (List.mem_cons_self _ _))
      · cases j with
        | zero => omega
        | succ j => rw [hnone] at hr; cases hr
    | returned r0 =>
      obtain ⟨hr0e, hr0d, hr0w⟩ := hg.2 r0 hw
      obtain ⟨ih1, ih2, ih3, ih4⟩ := ih r0.muxer hr0d hpre1
      have hsucc : ∀ i, (writeAll c e ((au0, pts0) :: (pre ++ (au, pts) :: post)))[i + 1]? =
          (writeAll c r0.muxer (pre ++ (au, pts) :: post))[i]? := by
        intro i
        rw [writeAll_succ, hw]
      refine ⟨fun i o hi ho => ?_, fun o ho => ?_, fun hne => ?_, fun j r hj hr => ?_⟩
      · cases i with
        | zero =>
          rw [writeAll_zero, Option.some.injEq, hw] at ho
          subst ho
          refine ⟨?_, fun r hr => ?_⟩
          · have := hg.1
            rw [hw] at this
            exact this
          · cases hr
            exact ⟨hr0e, hr0d, hr0w⟩
        | succ i =>
          rw [hsucc] at ho
          obtain ⟨h1, h2⟩ := ih1 i o (by omega) ho
          refine ⟨h1, fun r hr => ?_⟩
          obtain ⟨h3, h4, h5⟩ := h2 r hr
          exact ⟨h3, h4, h5.trans hr0w⟩
      · rw [hsucc] at ho
        exact ih2 o ho
      · rw [hsucc]
        exact ih3 (fun y hy => hne y (List.mem_cons_of_mem _ hy))
      · cases j with
        | zero => omega
        | succ j =>
          rw [hsucc] at hr
          exact ih4 j r (by omega) hr

/-- C3, as amended. For every sequence of `writeH264` calls on a freshly initialized
recorder: no call that precedes the first call with an IDR makes any external call, and
each of them that returns returns nil and leaves the recorder without estimator and the
writer untouched. The first call with an IDR is executed when no NAL unit before it is
empty; when its own NAL units are non-empty it creates the estimator, once and before its
`Extract` (otherwise it fails in the loop, before any external call), and if it returns,
the estimator it leaves is the new one as its first `Extract` left it. No later call
creates an estimator: after a call that returned, the next call still finds that call's
estimator and, if it returns, leaves it untouched or in the state its own `Extract` on the
handed access unit left. -/
theorem writeAll_estimator_gate {D W : Type} (c : Codec D W) (e : mpegtsMuxer D W)
    (pre : List (AU × Int)) (au : AU) (pts : Int) (post : List (AU × Int))
    (hfresh : e.dtsExtractor = none)
    (hpre : ∀ x ∈ pre, ¬ specContains NALUTypeIDR x.1)
    (hidr : specContains NALUTypeIDR au) :
    (∀ (i : Nat) (o : Outcome D W), i < pre.length →
      (writeAll c e (pre ++ (au, pts) :: post))[i]? = some o →
      externalCalls o = [] ∧
      ∀ r, o = Outcome.returned r →
        r.err = none ∧ r.muxer.dtsExtractor = none ∧ r.muxer.w = e.w) ∧
    ((∀ x ∈ pre, specNonEmptyNALUs x.1) →
      ∃ o, (writeAll c e (pre ++ (au, pts) :: post))[pre.length]? = some o) ∧
    (∀ (o : Outcome D W), (writeAll c e (pre ++ (au, pts) :: post))[pre.length]? = some o →
      (specNonEmptyNALUs au → ∃ a tl,
        externalCalls o = Call.newDTSExtractor :: Call.extract a pts :: tl ∧
        Call.newDTSExtractor ∉ tl) ∧
      (¬ specNonEmptyNALUs au → o = Outcome.panicked []) ∧
      ∀ r, o = Outcome.returned r →
        ∃ a d1 res, c.dtsExtract c.dtsInit a pts = some (d1, res) ∧
          r.muxer.dtsExtractor = some d1) ∧
    (∀ (k : Nat) (r0 : WriteResult D W) (ak : AU) (pk : Int) (o : Outcome D W),
      (writeAll c e (pre ++ (au, pts) :: post))[pre.length + k]? = some (Outcome.returned r0) →
      post[k]? = some (ak, pk) →
      (writeAll c e (pre ++ (au, pts) :: post))[pre.length + k + 1]? = some o →
      Call.newDTSExtractor ∉ externalCalls o ∧
      ∃ d, r0.muxer.dtsExtractor = some d ∧
        ∀ r, o = Outcome.returned r →
          (r.muxer.dtsExtractor = some d ∨
            ∃ d1 res, c.dtsExtract d (specHandedAU r0.muxer.sps r0.muxer.pps ak) pk
                = some (d1, res) ∧
              r.muxer.dtsExtractor = some d1)) := by
  obtain ⟨h1, h2, h3, h4⟩ := writeAll_first_idr c pre au pts post hidr e hfresh hpre
  refine ⟨h1, h3, h2, ?_⟩
  intro k r0 ak pk o hr0 hpost ho
  obtain ⟨d, hd⟩ := Option.ne_none_iff_exists'.1 (h4 (pre.length + k) r0 (by omega) hr0)
  have hidx : (pre ++ (au, pts) :: post)[pre.length + k + 1]? = some (ak, pk) := by
    rw [List.getElem?_append_right (by omega)]
    have : pre.length + k + 1 - pre.length = k + 1 := by omega
    rw [this, List.getElem?_cons_succ]
    exact hpost
  rw [writeAll_next c _ e (pre.length + k) r0 ak pk hr0 hidx, Option.some.injEq] at ho
  subst ho
  have hk := writeH264_keeps c r0.muxer ak pk d hd
  exact ⟨hk.1, d, hd, hk.2⟩

/-- C3, witness: a non-IDR slice, then a keyframe with its parameter sets, then another
keyframe, on a fresh recorder; the second call is the first with an IDR and it is
executed. -/
theorem writeAll_estimator_gate_witness :
    demoMuxer.dtsExtractor = none ∧
    (∀ x ∈ [(([[0x41, 0x9A]] : AU), (0 : Int))], ¬ specContains NALUTypeIDR x.1) ∧
    specContains NALUTypeIDR [[0x67, 0x42], [0x68, 0xCE], [0x65, 0x88]] ∧
    ∃ o, (writeAll demoCodec demoMuxer
            ([([[0x41, 0x9A]], 0)] ++
              ([[0x67, 0x42], [0x68, 0xCE], [0x65, 0x88]], 40) :: [([[0x65, 0x88]], 80)]))[1]?
          = some o :=
  ⟨rfl, by decide, by decide,
   (writeAll_estimator_gate demoCodec demoMuxer [([[0x41, 0x9A]], 0)]
      [[0x67, 0x42], [0x68, 0xCE], [0x65, 0x88]] 40
      [([[0x65, 0x88]], 80)] rfl (by decide) (by decide)).2.1 (by decide)⟩

/-- C3, counterexample. On a fresh recorder, the first call whose access unit contains an
IDR does not create the estimator when that access unit also holds a zero-length NAL unit:
the call fails in the loop, before any external call, and the run ends there. -/
theorem writeAll_estimator_gate_counterexample :
    demoMuxer.dtsExtractor = none ∧
    specContains NALUTypeIDR [[0x65, 0x88], []] ∧
    writeAll demoCodec demoMuxer [([[0x65, 0x88], []], 40)] = [Outcome.panicked []] :=
  ⟨rfl, by decide, rfl⟩

/-! ## Claims about the coordinator -/

theorem close_openFiles {D W : Type} (wd wd1 : World) (m : mpegtsMuxer D W)
    (h : mpegtsMuxer.close wd (some m) = some wd1) :
    wd1.openFiles = wd.openFiles.filter (fun i => i != m.f) := by
  simp only [mpegtsMuxer.close, Option.some.injEq] at h
  subst h
  rfl

/-- After the teardown of `OnAnnounce` no file is open, whatever the state satisfying the
invariant. -/
theorem announceTeardown_closes {D W : Type} (st : World × serverHandler D W) (wd1 : World)
    (hinv : sinkInvariant st) (h : announceTeardown st = some wd1) :
    wd1.openFiles = [] := by
  obtain ⟨wd, sh⟩ := st
  unfold announceTeardown at h
  rcases hinv with h0 | ⟨m, hm, hf, hp, hs⟩
  · simp only at h0
    split at h
    · cases hmx : sh.mpegtsMuxer with
      | none => simp [mpegtsMuxer.close, hmx] at h
      | some m =>
        simp only [hmx] at h
        rw [close_openFiles _ _ _ h]
        simp [h0]
    · cases h
      exact h0
  · simp only at hm hf hp hs
    obtain ⟨p, hp1⟩ := Option.ne_none_iff_exists'.1 hp
    obtain ⟨s, hs1⟩ := Option.ne_none_iff_exists'.1 hs
    simp only [hp1, hs1, hm] at h
    rw [close_openFiles _ _ _ h]
    simp [hf]

theorem OnSessionClose_invariant {D W : Type} (st st1 : World × serverHandler D W)
    (session : Nat) (hinv : sinkInvariant st) (h : OnSessionClose st session = some st1) :
    sinkInvariant st1 := by
  obtain ⟨wd, sh⟩ := st
  left
  unfold OnSessionClose at h
  simp only at h
  split at h
  · cases h
  · rename_i wd2 hc
    cases h
    simp only
    have hf : ∀ (w1 : World) (s1 : serverHandler D W), w1.openFiles = wd.openFiles →
        s1.mpegtsMuxer = sh.mpegtsMuxer →
        mpegtsMuxer.close w1 ({ s1 with publisher := none } : serverHandler D W).mpegtsMuxer
          = some wd2 → wd2.openFiles = [] := by
      intro w1 s1 hw hs hcl
      simp only [hs] at hcl
      cases hm : sh.mpegtsMuxer with
      | none => simp [mpegtsMuxer.close, hm] at hcl
      | some m =>
        rw [hm] at hcl
        rw [close_openFiles _ _ _ hcl, hw]
        rcases hinv with h0 | ⟨m1, hm1, hf1, _, _⟩
        · simp only at h0
          simp [h0]
        · simp only at hm1 hf1
          rw [hm] at hm1
          cases hm1
          simp [hf1]
    revert hc
    split
    · split_ifs
      · exact hf _ _ rfl rfl
      · exact hf _ _ rfl rfl
    · exact hf _ _ rfl rfl

theorem OnAnnounce_invariant {D W : Type} (c : Codec D W) (st : World × serverHandler D W)
    (ctx : AnnounceCtx) (wd1 : World) (sh1 : serverHandler D W) (resp : Response)
    (hinv : sinkInvariant st)
    (h : OnAnnounce c st ctx = some (wd1, sh1, resp)) : sinkInvariant (wd1, sh1) := by
  unfold OnAnnounce at h
  cases ht : announceTeardown st with
  | none => simp [ht] at h
  | some wd0 =>
    simp only [ht] at h
    have h0 := announceTeardown_closes st wd0 hinv ht
    cases hh : ctx.h264 with
    | none =>
      simp only [hh, Option.some.injEq, Prod.mk.injEq] at h
      obtain ⟨rfl, rfl, rfl⟩ := h
      exact Or.inl h0
    | some mf =>
      obtain ⟨medi, forma⟩ := mf
      simp only [hh] at h
      split_ifs at h <;> cases hce : ctx.createErr <;>
        simp only [ mpegtsMuxer.initialize, hce, Bool.false_eq_true, if_false, if_true,
          Option.some.injEq, Prod.mk.injEq, reduceCtorEq] at h <;>
        obtain ⟨rfl, rfl, rfl⟩ := h <;>
        first
          | exact Or.inl h0
          | exact Or.inr ⟨_, rfl, by simp [h0], by simp, by simp⟩

/-- Every state the coordinator reaches from a state with the recorder invariant has
it. -/
theorem run_invariant {D W : Type} (c : Codec D W) (evs : List Event) :
    ∀ (st st1 : World × serverHandler D W), sinkInvariant st →
      run c st evs = some st1 → sinkInvariant st1 := by
  induction evs with
  | nil =>
    intro st st1 hinv h
    simp only [run, Option.some.injEq] at h
    exact h ▸ hinv
  | cons ev rest ih =>
    intro st st1 hinv h
    simp only [run] at h
    split at h
    · cases h
    · rename_i st2 hstep
      refine ih st2 st1 ?_ h
      cases ev with
      | announce ctx =>
        simp only [step] at hstep
        split at hstep
        · cases hstep
        · rename_i wd2 sh2 resp ha
          cases hstep
          exact OnAnnounce_invariant c st ctx wd2 sh2 resp hinv ha
      | sessionClose session =>
        exact OnSessionClose_invariant st st2 session hinv hstep

/-- What an announce leaves open, from a state with the recorder invariant: nothing, or
the one file it created itself. -/
theorem OnAnnounce_openFiles {D W : Type} (c : Codec D W) (st : World × serverHandler D W)
    (ctx : AnnounceCtx) (wd1 : World) (sh1 : serverHandler D W) (resp : Response)
    (hinv : sinkInvariant st)
    (h : OnAnnounce c st ctx = some (wd1, sh1, resp)) :
    ∃ wd0, announceTeardown st = some wd0 ∧ wd0.openFiles = [] ∧
      ((wd1.openFiles = [] ∧ wd1.created = wd0.created) ∨
       (wd1.openFiles = [wd0.created] ∧ wd1.created = wd0.created + 1 ∧
        resp.status = StatusOK ∧
        ∃ m, sh1.mpegtsMuxer = some m ∧ m.f = wd0.created)) := by
  unfold OnAnnounce at h
  cases ht : announceTeardown st with
  | none => simp [ht] at h
  | some wd0 =>
    simp only [ht] at h
    have h0 := announceTeardown_closes st wd0 hinv ht
    refine ⟨wd0, rfl, h0, ?_⟩
    cases hh : ctx.h264 with
    | none =>
      simp only [hh, Option.some.injEq, Prod.mk.injEq] at h
      obtain ⟨rfl, rfl, rfl⟩ := h
      exact Or.inl ⟨h0, rfl⟩
    | some mf =>
      obtain ⟨medi, forma⟩ := mf
      simp only [hh] at h
      split_ifs at h <;> cases hce : ctx.createErr <;>
        simp only [ mpegtsMuxer.initialize, hce, Bool.false_eq_true, if_false, if_true,
          Option.some.injEq, Prod.mk.injEq, reduceCtorEq] at h <;>
        obtain ⟨rfl, rfl, rfl⟩ := h <;>
        first
          | exact Or.inl ⟨h0, rfl⟩
          | exact Or.inr ⟨by simp [h0], rfl, rfl, _, rfl, rfl⟩

/-- C4. In every state that the coordinator reaches from startup by announces and session
closes, whether recorder initialization succeeds or fails, at most one recorder file is
open. An announce arriving in such a state has closed every file by the end of its
teardown, that is before it creates a new one: what it leaves open is nothing, or only the
file it created itself after the teardown, which is then the file of the recorder the
coordinator holds. -/
theorem run_at_most_one_sink {D W : Type} (c : Codec D W) (evs : List Event)
    (st : World × serverHandler D W)
    (h : run c (initial D W) evs = some st) :
    st.1.openFiles.length ≤ 1 ∧
    (∀ wd0, announceTeardown st = some wd0 → wd0.openFiles = []) ∧
    ∀ ctx wd1 sh1 resp, OnAnnounce c st ctx = some (wd1, sh1, resp) →
      ∃ wd0, announceTeardown st = some wd0 ∧ wd0.openFiles = [] ∧
        ((wd1.openFiles = [] ∧ wd1.created = wd0.created) ∨
         (wd1.openFiles = [wd0.created] ∧ wd1.created = wd0.created + 1 ∧
          resp.status = StatusOK ∧
          ∃ m, sh1.mpegtsMuxer = some m ∧ m.f = wd0.created)) := by
  have hinv : sinkInvariant st := run_invariant c evs (initial D W) st (Or.inl rfl) h
  refine ⟨?_, fun wd0 => announceTeardown_closes st wd0 hinv,
    fun ctx wd1 sh1 resp ha => OnAnnounce_openFiles c st ctx wd1 sh1 resp hinv ha⟩
  rcases hinv with h0 | ⟨m, _, hf, _, _⟩
  · simp [h0]
  · simp [hf]

/-- C4, witness: three announces, one of them failing at the creation of the file, and a
session close. -/
theorem run_at_most_one_sink_witness :
    ∃ st, run demoCodec (initial Unit Unit)
        [Event.announce (demoAnnounce 1), Event.announce (demoAnnounce 2),
         Event.sessionClose 2, Event.announce { demoAnnounce 3 with createErr := true },
         Event.announce (demoAnnounce 4)] = some st ∧
      st.1.openFiles = [2] ∧ st.1.openFiles.length ≤ 1 :=
  ⟨_, rfl, rfl,
   (run_at_most_one_sink demoCodec
      [Event.announce (demoAnnounce 1), Event.announce (demoAnnounce 2),
       Event.sessionClose 2, Event.announce { demoAnnounce 3 with createErr := true },
       Event.announce (demoAnnounce 4)] _ rfl).1⟩

/-- C5, as amended. For every coordinator state in Publishing (publisher, stream and
recorder bound) and every closing session that is not the bound publisher, `OnSessionClose`
does not close or clear the live stream and changes nothing else than this: it clears the
publisher binding and closes the recorder's file. -/
theorem OnSessionClose_other_session {D W : Type} (st : World × serverHandler D W)
    (p s session : Nat) (m : mpegtsMuxer D W)
    (hp : st.2.publisher = some p) (hs : st.2.stream = some s)
    (hm : st.2.mpegtsMuxer = some m) (hne : session ≠ p) :
    OnSessionClose st session = some
      ({ st.1 with openFiles := st.1.openFiles.filter (fun i => i != m.f) },
       { st.2 with publisher := none }) := by
  obtain ⟨wd, sh⟩ := st
  simp only at hp hs hm
  have hne1 : ¬ (some p = some session) := fun h => hne (Option.some.inj h).symm
  simp [OnSessionClose, hp, hs, hm, hne1, mpegtsMuxer.close]

/-- C5, witness: the Publishing state reached by the announce of session 1, and the close
of session 2. -/
theorem OnSessionClose_other_session_witness :
    run demoCodec (initial Unit Unit) [Event.announce (demoAnnounce 1)] = some demoPublishing ∧
    OnSessionClose demoPublishing 2 = some
      ({ demoPublishing.1 with openFiles := [] }, { demoPublishing.2 with publisher := none }) :=
  ⟨rfl, OnSessionClose_other_session demoPublishing 1 0 2 _ rfl rfl rfl (by decide)⟩

/-- C5, counterexample. After the announce of session 1 the coordinator is Publishing with
publisher 1 and stream 0; the close of session 2, which is not the publisher, leaves the
stream bound and open but clears the publisher binding. -/
theorem OnSessionClose_other_session_counterexample :
    run demoCodec (initial Unit Unit) [Event.announce (demoAnnounce 1)] = some demoPublishing ∧
    demoPublishing.2.publisher = some 1 ∧ demoPublishing.2.stream = some 0 ∧
    ∃ st1, OnSessionClose demoPublishing 2 = some st1 ∧
      st1.2.publisher = none ∧ st1.2.stream = some 0 ∧ st1.1.closedStreams = [] :=
  ⟨rfl, rfl, rfl, _, rfl, rfl, rfl, rfl⟩

/-- C6, as amended. For every coordinator state and every announce whose description has
no H.264 format, `OnAnnounce`, when it returns, rejects with 400 Bad Request and an error,
creates no recorder file and no stream, and leaves every field of the handler as it was
(publisher binding, stream handle, recorder handle). When no publisher or no stream is
bound it returns and changes nothing at all. When a publisher, a stream and a recorder are
bound, it first closes the stream, the publisher session and the recorder's file, and
rejects after that. -/
theorem OnAnnounce_without_h264 {D W : Type} (c : Codec D W)
    (st : World × serverHandler D W) (ctx : AnnounceCtx) (h : ctx.h264 = none) :
    (∀ wd1 sh1 resp, OnAnnounce c st ctx = some (wd1, sh1, resp) →
      resp = h264NotFound ∧ sh1 = st.2 ∧ wd1.created = st.1.created ∧
      wd1.streams = st.1.streams) ∧
    ((st.2.publisher = none ∨ st.2.stream = none) →
      OnAnnounce c st ctx = some (st.1, st.2, h264NotFound)) ∧
    (∀ p s m, st.2.publisher = some p → st.2.stream = some s → st.2.mpegtsMuxer = some m →
      OnAnnounce c st ctx = some
        ({ st.1 with closedStreams := st.1.closedStreams ++ [s],
                     closedSessions := st.1.closedSessions ++ [p],
                     openFiles := st.1.openFiles.filter (fun i => i != m.f) },
         st.2, h264NotFound)) := by
  obtain ⟨wd, sh⟩ := st
  refine ⟨?_, ?_, ?_⟩
  · intro wd1 sh1 resp hr
    unfold OnAnnounce at hr
    cases ht : announceTeardown (wd, sh) with
    | none => simp [ht] at hr
    | some wd0 =>
      simp only [ht, h, Option.some.injEq, Prod.mk.injEq] at hr
      obtain ⟨rfl, rfl, rfl⟩ := hr
      refine ⟨rfl, rfl, ?_, ?_⟩ <;>
      · unfold announceTeardown at ht
        split at ht
        · cases hmx : sh.mpegtsMuxer with
          | none => simp [mpegtsMuxer.close, hmx] at ht
          | some m =>
            simp only [hmx, mpegtsMuxer.close, Option.some.injEq] at ht
            subst ht
            rfl
        · cases ht
          rfl
  · intro hidle
    have ht : announceTeardown (wd, sh) = some wd := by
      unfold announceTeardown
      rcases hidle with h1 | h1 <;> simp only at h1 <;> split <;> simp_all
    simp [OnAnnounce, ht, h, h264NotFound]
  · intro p s m hp hs hm
    simp only at hp hs hm
    simp [OnAnnounce, announceTeardown, hp, hs, hm, h, mpegtsMuxer.close, h264NotFound]

/-- C6, witness: an announce without H.264 format at startup is rejected and changes
nothing. -/
theorem OnAnnounce_without_h264_witness :
    ({ demoAnnounce 1 with h264 := none } : AnnounceCtx).h264 = none ∧
    OnAnnounce demoCodec (initial Unit Unit) { demoAnnounce 1 with h264 := none } =
      some ((initial Unit Unit).1, (initial Unit Unit).2, h264NotFound) :=
  ⟨rfl, (OnAnnounce_without_h264 demoCodec (initial Unit Unit)
          { demoAnnounce 1 with h264 := none } rfl).2.1 (Or.inl rfl)⟩

/-- C6, counterexample. After the announce of session 1 the coordinator is Publishing with
an open stream and an open recorder file; an announce of session 2 without H.264 format is
rejected with 400, but only after the stream, the publisher session and the recorder's file
have been closed. -/
theorem OnAnnounce_without_h264_counterexample :
    run demoCodec (initial Unit Unit) [Event.announce (demoAnnounce 1)] = some demoPublishing ∧
    demoPublishing.1.openFiles = [0] ∧ demoPublishing.1.closedStreams = [] ∧
    demoPublishing.1.closedSessions = [] ∧
    ∃ wd1 sh1 resp,
      OnAnnounce demoCodec demoPublishing { demoAnnounce 2 with h264 := none }
        = some (wd1, sh1, resp) ∧
      resp.status = StatusBadRequest ∧
      wd1.openFiles = [] ∧ wd1.closedStreams = [0] ∧ wd1.closedSessions = [1] :=
  ⟨rfl, rfl, rfl, rfl, _, _, _, rfl, rfl, rfl, rfl, rfl⟩

/-- C7, the failing input. At startup the coordinator holds no recorder, and the close of
any session panics: `sh.mpegtsMuxer.close()` dereferences the nil recorder. -/
theorem OnSessionClose_initial_panics (session : Nat) :
    (initial Unit Unit).2.mpegtsMuxer = none ∧
    OnSessionClose (initial Unit Unit) session = none :=
  ⟨rfl, rfl⟩

/-- Towards C7. In every coordinator state without recorder, `OnSessionClose` panics. -/
theorem OnSessionClose_without_recorder {D W : Type} (st : World × serverHandler D W)
    (session : Nat) (h : st.2.mpegtsMuxer = none) : OnSessionClose st session = none := by
  obtain ⟨wd, sh⟩ := st
  simp only at h
  unfold OnSessionClose
  cases hs : sh.stream with
  | none => simp [hs, h, mpegtsMuxer.close]
  | some s => by_cases hp : sh.publisher = some session <;> simp [hs, hp, h, mpegtsMuxer.close]

/-- Towards C7, witness: the state at startup. -/
theorem OnSessionClose_without_recorder_witness :
    OnSessionClose (initial Unit Unit) 7 = none :=
  OnSessionClose_without_recorder (initial Unit Unit) 7 rfl

/-- Towards C7. Closing a recorder that exists never fails, and closing it a second time
changes nothing. -/
theorem close_twice {D W : Type} (wd : World) (m : mpegtsMuxer D W) :
    ∃ wd1, mpegtsMuxer.close wd (some m) = some wd1 ∧
      mpegtsMuxer.close wd1 (some m) = some wd1 := by
  refine ⟨_, rfl, ?_⟩
  simp [mpegtsMuxer.close, List.filter_filter]

/-- Every state reached from startup that binds a publisher or a stream holds a
recorder. -/
theorem run_bound_has_recorder {D W : Type} (c : Codec D W) (evs : List Event) :
    ∀ (st st1 : World × serverHandler D W),
      (st.2.mpegtsMuxer = none → st.2.publisher = none ∧ st.2.stream = none) →
      run c st evs = some st1 →
      (st1.2.mpegtsMuxer = none → st1.2.publisher = none ∧ st1.2.stream = none) := by
  induction evs with
  | nil =>
    intro st st1 hinv h
    simp only [run, Option.some.injEq] at h
    exact h ▸ hinv
  | cons ev rest ih =>
    intro st st1 hinv h
    simp only [run] at h
    cases hstep : step c st ev with
    | none => simp [hstep] at h
    | some st2 =>
      simp only [hstep] at h
      refine ih st2 st1 ?_ h
      obtain ⟨wd, sh⟩ := st
      cases ev with
      | announce ctx =>
        simp only [step] at hstep
        cases ha : OnAnnounce c (wd, sh) ctx with
        | none => simp [ha] at hstep
        | some res =>
          obtain ⟨wd2, sh2, resp⟩ := res
          simp only [ha, Option.some.injEq] at hstep
          subst hstep
          unfold OnAnnounce at ha
          cases ht : announceTeardown (wd, sh) with
          | none => simp [ht] at ha
          | some wd0 =>
            simp only [ht] at ha
            cases hh : ctx.h264 with
            | none =>
              simp only [hh, Option.some.injEq, Prod.mk.injEq] at ha
              obtain ⟨-, rfl, -⟩ := ha
              exact hinv
            | some mf =>
              obtain ⟨medi, forma⟩ := mf
              simp only [hh] at ha
              split_ifs at ha <;> cases hce : ctx.createErr <;>
                simp only [ mpegtsMuxer.initialize, hce, Bool.false_eq_true, if_false,
                  if_true, Option.some.injEq, Prod.mk.injEq, reduceCtorEq] at ha <;>
                obtain ⟨-, rfl, -⟩ := ha <;>
                first
                  | exact hinv
                  | (intro hnone; simp at hnone)
      | sessionClose session =>
        simp only [step] at hstep
        intro hnone
        cases hm : sh.mpegtsMuxer with
        | none => rw [OnSessionClose_without_recorder (wd, sh) session hm] at hstep; cases hstep
        | some m =>
          exfalso
          unfold OnSessionClose at hstep
          simp only at hstep
          split at hstep
          · cases hstep
          · cases hstep
            simp only at hnone
            revert hnone
            split <;> try split_ifs
            all_goals simp [hm]

/-- Towards C6. In every state reached from startup, an announce without H.264 format
returns: it is rejected with 400 and the handler keeps its fields. -/
theorem run_OnAnnounce_without_h264_returns {D W : Type} (c : Codec D W) (evs : List Event)
    (st : World × serverHandler D W) (ctx : AnnounceCtx)
    (hrun : run c (initial D W) evs = some st) (h : ctx.h264 = none) :
    ∃ wd1, OnAnnounce c st ctx = some (wd1, st.2, h264NotFound) := by
  have hinv := run_bound_has_recorder c evs (initial D W) st (fun _ => ⟨rfl, rfl⟩) hrun
  obtain ⟨wd, sh⟩ := st
  simp only at hinv
  cases hm : sh.mpegtsMuxer with
  | none =>
    obtain ⟨hp, hs⟩ := hinv hm
    exact ⟨wd, by simp [OnAnnounce, announceTeardown, hp, hs, h, h264NotFound]⟩
  | some m =>
    cases hp : sh.publisher with
    | none => exact ⟨wd, by simp [OnAnnounce, announceTeardown, hp, h, h264NotFound]⟩
    | some p =>
      cases hs : sh.stream with
      | none => exact ⟨wd, by simp [OnAnnounce, announceTeardown, hp, hs, h, h264NotFound]⟩
      | some s =>
        exact ⟨{ wd with closedStreams := wd.closedStreams ++ [s],
                         closedSessions := wd.closedSessions ++ [p],
                         openFiles := wd.openFiles.filter (fun i => i != m.f) },
          by simp [OnAnnounce, announceTeardown, hp, hs, hm, h, mpegtsMuxer.close,
            h264NotFound]⟩

/-- Towards C6, witness: the Publishing state after one announce. -/
theorem run_OnAnnounce_without_h264_returns_witness :
    ∃ wd1, OnAnnounce demoCodec demoPublishing { demoAnnounce 2 with h264 := none } =
      some (wd1, demoPublishing.2, h264NotFound) :=
  run_OnAnnounce_without_h264_returns demoCodec [Event.announce (demoAnnounce 1)]
    demoPublishing { demoAnnounce 2 with h264 := none } rfl rfl


end GoMediaServer
